import Mathlib

/-!
Verification of the StanzaFlow front-end pipeline: a shallow embedding of
the tree-to-AST transformer, AST-to-IR lowering, IR schema validation and
the compiler facade (`core/ast.py`, `core/ir.py`, `core/exceptions.py`),
together with theorems settling the specification claims.

Strings are handled through their character lists; Python `str` helpers
(`strip`, `lstrip`, `lower`, `isdigit`) are embedded explicitly.
-/

namespace StanzaFlow

/-! ## Python string helpers -/

/-- Characters Python's `str.strip()` removes (ASCII whitespace). -/
def pySpace (c : Char) : Bool :=
  c = ' ' || c = '\t' || c = '\n' || c = '\r' || c = '\x0b' || c = '\x0c'

/-- Python `str.strip()`. -/
def pyStrip (s : String) : String :=
  ⟨((s.data.dropWhile pySpace).reverse.dropWhile pySpace).reverse⟩

/-- Python `str.lstrip("# ")`: drop leading characters from the set `{'#', ' '}`. -/
def pyLstripHashSpace (s : String) : String :=
  ⟨s.data.dropWhile (fun c => c = '#' || c = ' ')⟩

/-- Python `str.lower()` on the ASCII range. -/
def pyLower (s : String) : String := ⟨s.data.map Char.toLower⟩

/-- Python `str.startswith`, by character lists. -/
def strStarts (s p : String) : Bool := p.data.isPrefixOf s.data

/-- Drop the first `n` characters, by character lists. -/
def strDrop (s : String) (n : Nat) : String := ⟨s.data.drop n⟩

/-- Python `str.split(c)` on a single-character separator. -/
def splitChar (c : Char) : List Char → List (List Char)
  | [] => [[]]
  | x :: xs =>
    let r := splitChar c xs
    if x = c then [] :: r
    else
      match r with
      | h :: t => (x :: h) :: t
      | [] => [[x]]

/-- Python `str.isdigit()` restricted to decimal digits: nonempty and all
characters are `0`-`9` (the token values reachable here are ASCII). -/
def pyIsDigit (s : String) : Bool := !s.data.isEmpty && s.data.all Char.isDigit

/-- Python `int(s)` on a string of decimal digits. -/
def pyInt (s : String) : Int :=
  Int.ofNat (s.data.foldl (fun n c => n * 10 + (c.toNat - 48)) 0)

/-! ## AST (`core/ast.py` dataclasses) -/

/-- A step attribute value is either a string or an integer. -/
inductive AttrValue where
  | str (s : String)
  | int (n : Int)
deriving DecidableEq

/-- `StepAttribute` dataclass. -/
structure StepAttribute where
  key : String
  value : AttrValue
deriving DecidableEq

/-- `Step` dataclass. -/
structure Step where
  name : String
  attributes : List StepAttribute := []
deriving DecidableEq

/-- `Step.get_attribute`: first attribute whose key matches, if any. -/
def Step.get_attribute (s : Step) (key : String) : Option StepAttribute :=
  s.attributes.find? (fun attr => attr.key == key)

/-- `Agent` dataclass. -/
structure Agent where
  name : String
  steps : List Step := []
deriving DecidableEq

/-- `EscapeBlock` dataclass. -/
structure EscapeBlock where
  target : String
  code : String
deriving DecidableEq

/-- `SecretBlock` dataclass. -/
structure SecretBlock where
  env_var : String
deriving DecidableEq

/-- `Workflow` dataclass. -/
structure Workflow where
  title : String
  agents : List Agent := []
  escape_blocks : List EscapeBlock := []
  secret_blocks : List SecretBlock := []
deriving DecidableEq

/-! ## Lark parse trees

A Lark tree node is either a `Token` (with a type and a value) or a `Tree`
(with a rule name `data` and children). -/

/-- Parse-tree node: a Lark `Token` or `Tree`. -/
inductive Node where
  | tok (ty : String) (val : String)
  | tree (data : String) (children : List Node)

/-! ## Tree-to-AST transformer (`StanzaFlowTransformer`) -/

/-- Is this node a `HEADING` token (`isinstance(child, Token)` and
`child.type == "HEADING"`)? -/
def isHeadingTok : Node → Bool
  | .tok ty _ => ty == "HEADING"
  | _ => false

/-- Is this node a `heading` subtree (`isinstance(child, Tree)` and
`child.data == "heading"`)? -/
def isHeadingTree : Node → Bool
  | .tree d _ => d == "heading"
  | _ => false

/-- `_extract_heading`: the first `HEADING` token's value with
`strip().lstrip("# ").strip()` applied; `""` when there is none. -/
def extract_heading (children : List Node) : String :=
  match children.find? isHeadingTok with
  | some (.tok _ v) => pyStrip (pyLstripHashSpace (pyStrip v))
  | _ => ""

/-- `_extract_agent_name`: first `agent_name` subtree (token child) or
`agent_name` token, stripped; `""` when there is none. -/
def extract_agent_name (children : List Node) : String :=
  (children.findSome? (fun c => match c with
    | .tree "agent_name" (.tok _ v :: _) => some (pyStrip v)
    | .tok "agent_name" v => some (pyStrip v)
    | _ => none)).getD ""

/-- The regex `^(?P<key>[a-zA-Z_]+)\s*:\s*(?P<val>.+)$` from
`_transform_step_attribute`, returning the `key` and `val` groups.
`\s` is Python whitespace, `.` does not match a newline, and `$` matches
at the end or just before one final trailing newline. -/
def matchKV (l : List Char) : Option (List Char × List Char) :=
  let k := l.takeWhile (fun c => (c ≥ 'a' && c ≤ 'z') || (c ≥ 'A' && c ≤ 'Z') || c = '_')
  let r := l.dropWhile (fun c => (c ≥ 'a' && c ≤ 'z') || (c ≥ 'A' && c ≤ 'Z') || c = '_')
  if k.isEmpty then none
  else
    match r.dropWhile pySpace with
    | ':' :: r2 =>
      let v := r2.dropWhile pySpace
      if v.isEmpty then none
      else if v.contains '\n' then
        (if v = v.takeWhile (fun c => c ≠ '\n') ++ ['\n'] then
          some (k, v.takeWhile (fun c => c ≠ '\n'))
        else none)
      else some (k, v)
    | _ => none

/-- The per-token body of `_transform_step_attribute`: strip the token
value, match the `key: value` regex, lowercase the key, strip the value,
then dispatch on the key. -/
def attrOfLine (tokval : String) : Option StepAttribute :=
  match matchKV (pyStrip tokval).data with
  | none => none
  | some (k, v) =>
    let key := pyLower ⟨k⟩
    let raw_val := pyStrip ⟨v⟩
    if key == "artifact" then some ⟨"artifact", .str raw_val⟩
    else if key == "retry" then
      (if pyIsDigit raw_val then some ⟨"retry", .int (pyInt raw_val)⟩ else none)
    else if key == "timeout" then
      (if pyIsDigit raw_val then some ⟨"timeout", .int (pyInt raw_val)⟩ else none)
    else if key == "on_error" || key == "branch" || key == "finally" then
      some ⟨key, .str raw_val⟩
    else none

/-- `_transform_step_attribute`: first token child that yields an
attribute; `None` when no token child produces one. -/
def transform_step_attribute (children : List Node) : Option StepAttribute :=
  children.findSome? (fun c => match c with
    | .tok _ v => attrOfLine v
    | _ => none)

/-- `_transform_step_body`: the attributes produced by the `step_attr`
subtrees, in order, dropped lines omitted. -/
def transform_step_body (children : List Node) : List StepAttribute :=
  children.filterMap (fun c => match c with
    | .tree "step_attr" acs => transform_step_attribute acs
    | _ => none)

/-- `_transform_step`: `children[1]` is the step name (an `IndexError` —
modelled as `Except.error` — when absent); attributes come from the
whole child list. -/
def transform_step (children : List Node) : Except String Step :=
  match children.get? 1 with
  | none => .error "list index out of range"
  | some c =>
    let name :=
      match c with
      | .tree "step_name" (.tok _ v :: _) => pyStrip v
      | .tree _ _ => ""
      | .tok _ v => pyStrip v
    .ok ⟨name, transform_step_body children⟩

/-- `_transform_agent_block`: `children[0]` is the header (an
`IndexError` when absent); the remaining `step` subtrees become steps. -/
def transform_agent_block (children : List Node) : Except String Agent :=
  match children with
  | [] => .error "list index out of range"
  | header :: rest =>
    let name :=
      match header with
      | .tree _ hcs => extract_agent_name hcs
      | .tok _ _ => ""
    (rest.foldlM (fun (steps : List Step) (c : Node) => match c with
      | .tree "step" scs => (transform_step scs).map (fun s => steps ++ [s])
      | _ => Except.ok steps) ([] : List Step)).map (fun steps => ⟨name, steps⟩)

/-- `_transform_escape_block`: scan the children, the last
`escape_target` token/subtree and `CODE_BLOCK` token win. -/
def transform_escape_block (children : List Node) : EscapeBlock :=
  children.foldl (fun eb c => match c with
    | .tok "escape_target" v => { eb with target := pyStrip v }
    | .tok "CODE_BLOCK" v => { eb with code := pyStrip v }
    | .tree "escape_target" (.tok _ v :: _) => { eb with target := pyStrip v }
    | _ => eb) ⟨"", ""⟩

/-- `_transform_secret_block`: the last `ENV_VAR` token wins. -/
def transform_secret_block (children : List Node) : SecretBlock :=
  ⟨children.foldl (fun acc c => match c with
    | .tok "ENV_VAR" v => pyStrip v
    | _ => acc) ""⟩

/-- One `content` child: agent, escape and secret blocks are appended to
the workflow being built; other children are ignored. -/
def applyContentChild (w : Workflow) (c : Node) : Except String Workflow :=
  match c with
  | .tree "agent_block" acs =>
    (transform_agent_block acs).map (fun a => { w with agents := w.agents ++ [a] })
  | .tree "escape_block" ecs =>
    .ok { w with escape_blocks := w.escape_blocks ++ [transform_escape_block ecs] }
  | .tree "secret_block" scs =>
    .ok { w with secret_blocks := w.secret_blocks ++ [transform_secret_block scs] }
  | _ => .ok w

/-- One child of the workflow tree: a `heading` sets the title, a
`content` subtree is processed child by child; others are ignored. -/
def applyChild (w : Workflow) (c : Node) : Except String Workflow :=
  match c with
  | .tree "heading" hcs => .ok { w with title := extract_heading hcs }
  | .tree "content" ccs => ccs.foldlM applyContentChild w
  | _ => .ok w

/-- `StanzaFlowTransformer.transform`: unwrap a `start` node (an
`IndexError` on an empty `start`, an empty workflow when its first child
is a token, an `AttributeError` on a bare token), then fold the workflow
tree's children over an initially empty workflow. -/
def transform (t : Node) : Except String Workflow :=
  match t with
  | .tok _ _ => .error "'Token' object has no attribute 'data'"
  | .tree data cs =>
    if data = "start" then
      match cs with
      | [] => .error "list index out of range"
      | c :: _ =>
        match c with
        | .tree _ cs' => cs'.foldlM applyChild ⟨"", [], [], []⟩
        | .tok _ _ => .ok ⟨"", [], [], []⟩
    else cs.foldlM applyChild ⟨"", [], [], []⟩

/-! ## Grammar / tokenizer -/

/-- Parser state while scanning lines. -/
structure PState where
  headings : List Node := []
  agentBlocks : List Node := []
  escapeBlocks : List Node := []
  secretBlocks : List Node := []
  curAgent : Option (String × List Node) := none
  curStep : Option (String × List Node) := none
  inEscape : Option (String × List String) := none

/-- Close the step being built, if any, adding it to the current agent. -/
def flushStep (st : PState) : PState :=
  match st.curStep, st.curAgent with
  | some (nm, attrs), some (an, steps) =>
    let stepNode := Node.tree "step"
      ([Node.tok "DASH" "-", Node.tree "step_name" [Node.tok "NAME" nm]] ++ attrs)
    { st with curStep := none, curAgent := some (an, steps ++ [stepNode]) }
  | some _, none => { st with curStep := none }
  | none, _ => st

/-- Close the agent being built, if any. -/
def flushAgent (st : PState) : PState :=
  let st := flushStep st
  match st.curAgent with
  | some (an, steps) =>
    let agentNode := Node.tree "agent_block"
      (Node.tree "agent_header" [Node.tree "agent_name" [Node.tok "NAME" an]] :: steps)
    { st with curAgent := none, agentBlocks := st.agentBlocks ++ [agentNode] }
  | none => st

/-- Join lines back with newlines (the fenced body is kept verbatim). -/
def joinLines : List String → String
  | [] => ""
  | [l] => l
  | l :: rest => l ++ "\n" ++ joinLines rest

/-- Modelled from the spec: the Lark grammar `stz_grammar.lark` is not
under `src/`; this scans one source line following the dialect of
spec sections 4.1 and 6 (heading `# …`, agent header `## Agent: …`, step
item `- Step: …`, indented attribute lines, `%%escape <target>` … `%%`
fences, `!env VAR` declarations; anything else is a syntax error). -/
def procLine (st : PState) (l : String) : Except String PState :=
  match st.inEscape with
  | some (tgt, acc) =>
    if pyStrip l = "%%" then
      let escNode := Node.tree "escape_block" [
        Node.tok "escape_target" tgt, Node.tok "CODE_BLOCK" (joinLines acc)]
      .ok { st with inEscape := none, escapeBlocks := st.escapeBlocks ++ [escNode] }
    else .ok { st with inEscape := some (tgt, acc ++ [l]) }
  | none =>
    if pyStrip l = "" then .ok st
    else if strStarts l "## Agent:" then
      .ok (let st := flushAgent st; { st with curAgent := some (strDrop l 9, []) })
    else if strStarts l "##" then .error ("Unexpected input: " ++ l)
    else if strStarts l "# " then
      .ok { st with headings := st.headings ++ [Node.tree "heading" [Node.tok "HEADING" l]] }
    else if strStarts l "- Step:" then
      match st.curAgent with
      | none => .error ("Unexpected input: " ++ l)
      | some _ => .ok (let st := flushStep st; { st with curStep := some (strDrop l 7, []) })
    else if strStarts l "!env " then
      .ok { st with secretBlocks := st.secretBlocks ++ [
        Node.tree "secret_block" [Node.tok "ENV_VAR" (pyStrip (strDrop l 5))]] }
    else if strStarts l "%%escape" then
      .ok { st with inEscape := some (pyStrip (strDrop l 8), []) }
    else if (match l.data with | c :: _ => pySpace c | [] => false) then
      match st.curStep with
      | some (nm, attrs) =>
        .ok { st with curStep := some (nm, attrs ++ [Node.tree "step_attr" [Node.tok "ATTR" l]]) }
      | none => .error ("Unexpected input: " ++ l)
    else .error ("Unexpected input: " ++ l)

/-- Modelled from the spec: the Lark grammar and `Lark(...).parse` are not
under `src/`. Parses source text into a `start`/`workflow` parse tree in
the shape the transformer consumes; an `Except.error` models a
`LarkError`. -/
def parseSF (content : String) : Except String Node := do
  let st ← ((splitChar '\n' content.data).map String.mk).foldlM procLine {}
  match st.inEscape with
  | some (tgt, _) => .error ("Unexpected end of input: unterminated escape block " ++ tgt)
  | none =>
    let st := flushAgent st
    .ok (Node.tree "start" [
      Node.tree "workflow"
        (st.headings ++ [
          Node.tree "content" (st.agentBlocks ++ st.escapeBlocks ++ st.secretBlocks)])])

/-! ## IR values (`dict`/`list`/`str`/`int` mappings) -/

/-- A JSON-like value: the IR is a nested mapping. Objects are ordered
key/value lists, matching Python dict insertion order. -/
inductive JValue where
  | str (s : String)
  | int (n : Int)
  | arr (xs : List JValue)
  | obj (fields : List (String × JValue))

/-- Python dict `d[k] = v`: update the value in place if the key exists,
otherwise append the pair. -/
def dictInsert : List (String × JValue) → String → JValue → List (String × JValue)
  | [], k, v => [(k, v)]
  | (k₀, v₀) :: d, k, v =>
    if k₀ == k then (k₀, v) :: d else (k₀, v₀) :: dictInsert d k v

/-- Python dict lookup on an ordered field list. -/
def dictLookup (d : List (String × JValue)) (k : String) : Option JValue :=
  (d.find? (fun p => p.1 == k)).map (fun p => p.2)

/-! ## AST-to-IR lowering (`workflow_to_ir`, construction part) -/

/-- A step attribute value as an IR value. -/
def attrValueToJ : AttrValue → JValue
  | .str s => .str s
  | .int n => .int n

/-- The `attributes` mapping of one step: written in list order, so a
later occurrence of a key overwrites an earlier one. -/
def stepAttrsIR (attrs : List StepAttribute) : List (String × JValue) :=
  attrs.foldl (fun d a => dictInsert d a.key (attrValueToJ a.value)) []

/-- One step as IR. -/
def stepToIR (s : Step) : JValue :=
  .obj [("name", .str s.name), ("attributes", .obj (stepAttrsIR s.attributes))]

/-- One agent as IR. -/
def agentToIR (a : Agent) : JValue :=
  .obj [("name", .str a.name), ("steps", .arr (a.steps.map stepToIR))]

/-- The IR mapping `workflow_to_ir` builds before validating it. -/
def lower (w : Workflow) : JValue :=
  .obj [("ir_version", .str "0.2"),
        ("workflow", .obj
          [("title", .str w.title),
           ("agents", .arr (w.agents.map agentToIR)),
           ("escape_blocks", .arr (w.escape_blocks.map (fun e =>
             .obj [("target", .str e.target), ("code", .str e.code)]))),
           ("secrets", .arr (w.secret_blocks.map (fun s =>
             .obj [("env_var", .str s.env_var)])))])]

/-! ## IR schema validation -/

/-- A component of `jsonschema`'s `error.absolute_path`: a property name
or an array index. -/
inductive PathPart where
  | prop (s : String)
  | idx (n : Nat)
deriving DecidableEq

/-- Modelled from the spec: the `jsonschema` library's
`ValidationError` type is not under `src/`. The fields are the ones
`ValidationError.from_jsonschema_error` reads: `validator`, `message`,
`absolute_path`, `schema.get("type")`, `schema.get("enum")` (rendered to
strings, as `map(str, ...)` does) and `instance` (here `inst`). -/
structure JsonschemaError where
  validator : String
  message : String
  absolute_path : List PathPart
  schema_type : Option String
  schema_enum : List String
  inst : JValue

/-- A `required` violation, shaped as `jsonschema` reports it. -/
def reqErr (missing : String) (path : List PathPart) (inst : JValue) : JsonschemaError :=
  { validator := "required", message := "'" ++ missing ++ "' is a required property",
    absolute_path := path, schema_type := none, schema_enum := [], inst := inst }

/-- A `type` violation, shaped as `jsonschema` reports it. -/
def typeErr (expected : String) (path : List PathPart) (inst : JValue) : JsonschemaError :=
  { validator := "type", message := "value is not of type '" ++ expected ++ "'",
    absolute_path := path, schema_type := some expected, schema_enum := [], inst := inst }

/-- The `enum` violation for a bad `ir_version`. -/
def enumErr (inst : JValue) : JsonschemaError :=
  { validator := "enum", message := "value is not one of ['0.2']",
    absolute_path := [.prop "ir_version"], schema_type := none,
    schema_enum := ["0.2"], inst := inst }

/-- An `additionalProperties` violation for a disallowed attribute key. -/
def apErr (k : String) (path : List PathPart) (inst : JValue) : JsonschemaError :=
  { validator := "additionalProperties",
    message := "Additional properties are not allowed ('" ++ k ++ "' was unexpected)",
    absolute_path := path, schema_type := none, schema_enum := [], inst := inst }

/-- The attribute keys the 0.2 schema admits. -/
def allowedAttrKeys : List String :=
  ["artifact", "retry", "timeout", "on_error", "branch", "finally"]

/-- Require a string value. -/
def checkStr (path : List PathPart) (v : JValue) : Except JsonschemaError Unit :=
  match v with
  | .str _ => .ok ()
  | _ => .error (typeErr "string" path v)

/-- Check one attribute value: `retry`/`timeout` must be integers, the
other recognized keys strings. -/
def checkAttrVal (base : List PathPart) (k : String) (v : JValue) :
    Except JsonschemaError Unit :=
  if k == "retry" || k == "timeout" then
    match v with
    | .int _ => .ok ()
    | _ => .error (typeErr "integer" (base ++ [.prop k]) v)
  else checkStr (base ++ [.prop k]) v

/-- Check the fields of an `attributes` object: every key must be in the
recognized set and carry a value of the right type. -/
def checkAttrsFields (base : List PathPart) (whole : JValue) :
    List (String × JValue) → Except JsonschemaError Unit
  | [] => .ok ()
  | (k, v) :: rest =>
    if allowedAttrKeys.contains k then do
      checkAttrVal base k v
      checkAttrsFields base whole rest
    else .error (apErr k base whole)

/-- Check one step object. -/
def checkStep (path : List PathPart) (s : JValue) : Except JsonschemaError Unit :=
  match s with
  | .obj fs =>
    match dictLookup fs "name" with
    | none => .error (reqErr "name" path s)
    | some nv => do
      checkStr (path ++ [.prop "name"]) nv
      match dictLookup fs "attributes" with
      | none => .ok ()
      | some av =>
        match av with
        | .obj afs => checkAttrsFields (path ++ [.prop "attributes"]) av afs
        | _ => .error (typeErr "object" (path ++ [.prop "attributes"]) av)
  | _ => .error (typeErr "object" path s)

/-- Check a list of steps, tracking array indices. -/
def checkSteps (base : List PathPart) : Nat → List JValue → Except JsonschemaError Unit
  | _, [] => .ok ()
  | i, s :: rest => do
    checkStep (base ++ [.idx i]) s
    checkSteps base (i + 1) rest

/-- Check one agent object. -/
def checkAgent (path : List PathPart) (a : JValue) : Except JsonschemaError Unit :=
  match a with
  | .obj fs =>
    match dictLookup fs "name" with
    | none => .error (reqErr "name" path a)
    | some nv => do
      checkStr (path ++ [.prop "name"]) nv
      match dictLookup fs "steps" with
      | none => .error (reqErr "steps" path a)
      | some sv =>
        match sv with
        | .arr ss => checkSteps (path ++ [.prop "steps"]) 0 ss
        | _ => .error (typeErr "array" (path ++ [.prop "steps"]) sv)
  | _ => .error (typeErr "object" path a)

/-- Check a list of agents, tracking array indices. -/
def checkAgents (base : List PathPart) : Nat → List JValue → Except JsonschemaError Unit
  | _, [] => .ok ()
  | i, a :: rest => do
    checkAgent (base ++ [.idx i]) a
    checkAgents base (i + 1) rest

/-- Check one escape-block object. -/
def checkEscape (path : List PathPart) (e : JValue) : Except JsonschemaError Unit :=
  match e with
  | .obj fs =>
    match dictLookup fs "target" with
    | none => .error (reqErr "target" path e)
    | some tv => do
      checkStr (path ++ [.prop "target"]) tv
      match dictLookup fs "code" with
      | none => .error (reqErr "code" path e)
      | some cv => checkStr (path ++ [.prop "code"]) cv
  | _ => .error (typeErr "object" path e)

/-- Check a list of escape blocks, tracking array indices. -/
def checkEscapes (base : List PathPart) : Nat → List JValue → Except JsonschemaError Unit
  | _, [] => .ok ()
  | i, e :: rest => do
    checkEscape (base ++ [.idx i]) e
    checkEscapes base (i + 1) rest

/-- Check one secret object. -/
def checkSecret (path : List PathPart) (s : JValue) : Except JsonschemaError Unit :=
  match s with
  | .obj fs =>
    match dictLookup fs "env_var" with
    | none => .error (reqErr "env_var" path s)
    | some ev => checkStr (path ++ [.prop "env_var"]) ev
  | _ => .error (typeErr "object" path s)

/-- Check a list of secrets, tracking array indices. -/
def checkSecrets (base : List PathPart) : Nat → List JValue → Except JsonschemaError Unit
  | _, [] => .ok ()
  | i, s :: rest => do
    checkSecret (base ++ [.idx i]) s
    checkSecrets base (i + 1) rest

/-- Check the `workflow` object: required `title` (string) and `agents`
(array), optional `escape_blocks` and `secrets` arrays. -/
def validateWorkflow (wf : JValue) : Except JsonschemaError Unit :=
  let base := [PathPart.prop "workflow"]
  match wf with
  | .obj fs =>
    match dictLookup fs "title" with
    | none => .error (reqErr "title" base wf)
    | some tv => do
      checkStr (base ++ [.prop "title"]) tv
      match dictLookup fs "agents" with
      | none => .error (reqErr "agents" base wf)
      | some av => do
        (match av with
         | .arr ags => checkAgents (base ++ [.prop "agents"]) 0 ags
         | _ => .error (typeErr "array" (base ++ [.prop "agents"]) av))
        (match dictLookup fs "escape_blocks" with
         | none => .ok ()
         | some ev =>
           match ev with
           | .arr es => checkEscapes (base ++ [.prop "escape_blocks"]) 0 es
           | _ => .error (typeErr "array" (base ++ [.prop "escape_blocks"]) ev))
        (match dictLookup fs "secrets" with
         | none => .ok ()
         | some sv =>
           match sv with
           | .arr ss => checkSecrets (base ++ [.prop "secrets"]) 0 ss
           | _ => .error (typeErr "array" (base ++ [.prop "secrets"]) sv))
  | _ => .error (typeErr "object" [] wf)

/-- Modelled from the spec: the schema document `ir-0.2.json` and the
`jsonschema` `Draft202012Validator` are not under `src/`. Fail-fast
validation of an IR mapping against the 0.2 contract of spec sections 4.4
and 6: required `ir_version` (it must equal `"0.2"`, an enum of one
value) and `workflow`, with the nested structural checks above. -/
def validateIR (ir : JValue) : Except JsonschemaError Unit :=
  match ir with
  | .obj fs =>
    match dictLookup fs "ir_version" with
    | none => .error (reqErr "ir_version" [] ir)
    | some vv =>
      match dictLookup fs "workflow" with
      | none => .error (reqErr "workflow" [] ir)
      | some wf => do
        (match vv with
         | .str s => if s == "0.2" then .ok () else .error (enumErr vv)
         | _ => .error (enumErr vv))
        validateWorkflow wf
  | _ => .error (typeErr "object" [] ir)

/-! ## Exceptions (`core/exceptions.py`) -/

/-- `ParseError`: message plus the optional position fields. -/
structure ParseError where
  message : String
  line : Option Nat := none
  column : Option Nat := none
deriving DecidableEq

/-- `ValidationError`: user-friendly message, human path, offending
value and the original lower-level error. -/
structure ValidationError where
  message : String
  path : String
  value : Option JValue := none
  original_error : Option JsonschemaError := none

/-- One step of the path-joining loop in `from_jsonschema_error`:
integer parts render as `[i]`; property parts get a leading arrow
separator unless they come first. -/
def renderAcc (acc : List String) (p : PathPart) : List String :=
  match p with
  | .idx n => acc ++ ["[" ++ Nat.repr n ++ "]"]
  | .prop s => if acc.isEmpty then acc ++ [s] else acc ++ [" → " ++ s]

/-- Python `"".join`. -/
def strConcat : List String → String
  | [] => ""
  | s :: rest => s ++ strConcat rest

/-- Python `", ".join`. -/
def commaJoin : List String → String
  | [] => ""
  | [s] => s
  | s :: rest => s ++ ", " ++ commaJoin rest

/-- `type(instance).__name__` for the IR value kinds. -/
def pyTypeName : JValue → String
  | .str _ => "str"
  | .int _ => "int"
  | .arr _ => "list"
  | .obj _ => "dict"

/-- `ValidationError.from_jsonschema_error`: build the human-readable
path, special-case the message for `required`, `type` and `enum`
violations with a generic fallback, and carry the offending value and
the original error. -/
def ValidationError.from_jsonschema_error (error : JsonschemaError) : ValidationError :=
  let path_parts := error.absolute_path.foldl renderAcc []
  let human_path := if path_parts.isEmpty then "root" else strConcat path_parts
  let message :=
    if error.validator == "required" then
      let missing_prop :=
        match splitChar '\'' error.message.data with
        | _ :: x :: _ => String.mk x
        | _ => "property"
      "Missing required property '" ++ missing_prop ++ "' at " ++ human_path
    else if error.validator == "type" then
      "Expected " ++ error.schema_type.getD "unknown" ++ " at " ++ human_path ++
        ", got " ++ pyTypeName error.inst
    else if error.validator == "enum" then
      "Invalid value at " ++ human_path ++ ". Allowed values: " ++ commaJoin error.schema_enum
    else
      "Validation error at " ++ human_path ++ ": " ++ error.message
  { message := message, path := human_path, value := some error.inst,
    original_error := some error }

/-! ## Compiler facade (`StanzaFlowCompiler`, `core/ir.py`) -/

/-- `validate_ir`: validate against the bundled schema, wrapping the
schema-level error via `from_jsonschema_error`. -/
def validate_ir (ir : JValue) : Except ValidationError Unit :=
  match validateIR ir with
  | .ok () => .ok ()
  | .error e => .error (ValidationError.from_jsonschema_error e)

/-- `workflow_to_ir`: build the IR mapping, validate it, return it. -/
def workflow_to_ir (w : Workflow) : Except ValidationError JValue :=
  match validate_ir (lower w) with
  | .ok () => .ok (lower w)
  | .error e => .error e

/-- `parse_string`: parse and transform, wrapping a grammar failure as
`Parse error in <source>: …` and any other failure as
`Unexpected error parsing <source>: …`. -/
def parse_string (content : String) (source : String) : Except ParseError Workflow :=
  match parseSF content with
  | .error e => .error ⟨"Parse error in " ++ source ++ ": " ++ e, none, none⟩
  | .ok t =>
    match transform t with
    | .ok w => .ok w
    | .error e => .error ⟨"Unexpected error parsing " ++ source ++ ": " ++ e, none, none⟩

/-- `parse_file`: the file read is modelled by its outcome
(`Except.error` carries the I/O failure message). The `try` block spans
both the read and the nested `parse_string` call, so every failure —
including a `ParseError` raised while parsing the content — is wrapped
as `Failed to read file <path>: …`. -/
def parse_file (readResult : Except String String) (path : String) :
    Except ParseError Workflow :=
  match readResult with
  | .error e => .error ⟨"Failed to read file " ++ path ++ ": " ++ e, none, none⟩
  | .ok content =>
    match parse_string content path with
    | .ok w => .ok w
    | .error pe => .error ⟨"Failed to read file " ++ path ++ ": " ++ pe.message, none, none⟩

/-- A compile call fails either with a `ParseError` or with a
`ValidationError`; the two kinds stay distinct. -/
inductive CompileFailure where
  | parse (e : ParseError)
  | validation (e : ValidationError)

/-- `compile_string`: parse, then lower-and-validate. -/
def compile_string (content : String) (source : String) :
    Except CompileFailure JValue :=
  match parse_string content source with
  | .error pe => .error (.parse pe)
  | .ok w =>
    match workflow_to_ir w with
    | .error ve => .error (.validation ve)
    | .ok ir => .ok ir

/-- `compile_file`: parse the file, then lower-and-validate. -/
def compile_file (readResult : Except String String) (path : String) :
    Except CompileFailure JValue :=
  match parse_file readResult path with
  | .error pe => .error (.parse pe)
  | .ok w =>
    match workflow_to_ir w with
    | .error ve => .error (.validation ve)
    | .ok ir => .ok ir

/-! ## Specification-side definitions and concrete artifacts used by the
claim statements -/

/-- `True` iff an `Except` computation succeeded (no exception raised). -/
def isOkE {ε α : Type} : Except ε α → Bool
  | .ok _ => true
  | .error _ => false

/-- The message of a failed validation, when it failed. -/
def vErrMessage : Except ValidationError Unit → Option String
  | .error e => some e.message
  | .ok _ => none

/-- The human path of a failed validation, when it failed. -/
def vErrPath : Except ValidationError Unit → Option String
  | .error e => some e.path
  | .ok _ => none

/-- The offending value of a failed validation, when it failed. -/
def vErrValue : Except ValidationError Unit → Option (Option JValue)
  | .error e => some e.value
  | .ok _ => none

/-- The `ir_version` entry of an IR mapping. -/
def irVersionOf : JValue → Option JValue
  | .obj fs => dictLookup fs "ir_version"
  | _ => none

/-- Spec rendering of the first path component: a property name stands
alone, an index renders as `[i]`. -/
def renderPathHead : PathPart → String
  | .prop s => s
  | .idx n => "[" ++ Nat.repr n ++ "]"

/-- Spec rendering of a later path component: property names are joined
with `" → "`, indices render as `[i]`. -/
def renderPathTail : PathPart → String
  | .prop s => " → " ++ s
  | .idx n => "[" ++ Nat.repr n ++ "]"

/-- The claimed human-readable path: property names joined with `" → "`,
integer indices rendered `[i]`, `"root"` when the path is empty. -/
def renderPathSpec : List PathPart → String
  | [] => "root"
  | p :: ps => renderPathHead p ++ strConcat (ps.map renderPathTail)

/-- The claimed message-construction rule: special cases for
missing-required-property, wrong-type and enum violations, with a
generic templated fallback. -/
def messageSpec (e : JsonschemaError) : String :=
  let path := renderPathSpec e.absolute_path
  if e.validator = "required" then
    let missing_prop :=
      match splitChar '\'' e.message.data with
      | _ :: x :: _ => String.mk x
      | _ => "property"
    "Missing required property '" ++ missing_prop ++ "' at " ++ path
  else if e.validator = "type" then
    "Expected " ++ e.schema_type.getD "unknown" ++ " at " ++ path ++
      ", got " ++ pyTypeName e.inst
  else if e.validator = "enum" then
    "Invalid value at " ++ path ++ ". Allowed values: " ++ commaJoin e.schema_enum
  else "Validation error at " ++ path ++ ": " ++ e.message

/-- The stripping rule C8 claims: remove only the leading run of `#`
markup and the whitespace after it, preserving the rest verbatim. -/
def specClaimStrip (s : String) : String :=
  ⟨(s.data.dropWhile (fun c => c = '#')).dropWhile pySpace⟩

/-- Stripping the code applies to a heading token:
`strip().lstrip("# ").strip()`, removing every leading `#` or space. -/
def headingMarkupStripped (s : String) : String :=
  pyStrip (pyLstripHashSpace (pyStrip s))

/-- The title the transformer actually produces for a workflow tree with
the given children: the first `HEADING` token of the last `heading`
child, markup-stripped; `""` when there is no heading. -/
def specTitle (cs : List Node) : String :=
  match cs.reverse.find? isHeadingTree with
  | some (.tree _ hcs) =>
    (match hcs.find? isHeadingTok with
     | some (.tok _ v) => headingMarkupStripped v
     | _ => "")
  | _ => ""

/-- The end-to-end demo source of spec section 8. -/
def demoSrc : String :=
  "# Demo\n## Agent: Bot\n- Step: Greet\n  artifact: out.txt\n  retry: 2\n"

/-- The workflow the demo source parses to. -/
def demoWorkflow : Workflow :=
  ⟨"Demo", [⟨"Bot", [⟨"Greet", [⟨"artifact", .str "out.txt"⟩, ⟨"retry", .int 2⟩]⟩]⟩], [], []⟩

/-- The IR the demo source compiles to. -/
def demoIR : JValue :=
  .obj [("ir_version", .str "0.2"),
        ("workflow", .obj
          [("title", .str "Demo"),
           ("agents", .arr [.obj [("name", .str "Bot"),
             ("steps", .arr [.obj [("name", .str "Greet"),
               ("attributes", .obj [("artifact", .str "out.txt"), ("retry", .int 2)])]])]]),
           ("escape_blocks", .arr []),
           ("secrets", .arr [])])]

/-- A well-formed workflow whose step uses an unrecognized attribute
key, so its lowered IR fails schema validation. -/
def bogusWorkflow : Workflow :=
  ⟨"T", [⟨"A", [⟨"S", [⟨"bogus", .str "x"⟩]⟩]⟩], [], []⟩

/-- The schema-level error validating `lower bogusWorkflow` reports. -/
def bogusSchemaErr : JsonschemaError :=
  apErr "bogus"
    [.prop "workflow", .prop "agents", .idx 0, .prop "steps", .idx 0, .prop "attributes"]
    (.obj [("bogus", .str "x")])

/-- An IR mapping lacking `ir_version` (its `workflow` part is valid). -/
def irMissingVersion : JValue :=
  .obj [("workflow", .obj [("title", .str "T"), ("agents", .arr [])])]

/-- An IR mapping with the given `ir_version` value and a valid
`workflow` part. -/
def irWithVersion (v : JValue) : JValue :=
  .obj [("ir_version", v), ("workflow", .obj [("title", .str "T"), ("agents", .arr [])])]

/-! ## Helper lemmas -/

/-- Looking up after a dict write: the written key reads back the new
value, other keys are untouched. -/
theorem dictLookup_dictInsert (d : List (String × JValue)) (k' k : String) (v : JValue) :
    dictLookup (dictInsert d k' v) k = if k' = k then some v else dictLookup d k := by
  induction d with
  | nil =>
    by_cases h : k' = k
    · subst h; simp [dictInsert, dictLookup, List.find?]
    · simp [dictInsert, dictLookup, List.find?, beq_eq_false_iff_ne.mpr h, h]
  | cons p d ih =>
    obtain ⟨k₀, v₀⟩ := p
    by_cases h0 : k₀ = k'
    · by_cases hk : k₀ = k
      · have hk' : k' = k := h0 ▸ hk
        simp [dictInsert, dictLookup, List.find?, beq_iff_eq.mpr h0,
          beq_iff_eq.mpr hk, hk']
      · have hk' : ¬k' = k := fun h => hk (h0.trans h)
        simp [dictInsert, dictLookup, List.find?, beq_iff_eq.mpr h0,
          beq_eq_false_iff_ne.mpr hk, hk']
    · by_cases hk : k₀ = k
      · have hk' : ¬k' = k := fun h => h0 (hk.trans h.symm)
        simp [dictInsert, dictLookup, List.find?, beq_eq_false_iff_ne.mpr h0,
          beq_iff_eq.mpr hk, hk']
      · simp only [dictInsert, beq_eq_false_iff_ne.mpr h0, Bool.false_eq_true,
          if_false]
        simp only [dictLookup, List.find?, beq_eq_false_iff_ne.mpr hk]
        simpa [dictLookup] using ih

/-- Folding a dict write per attribute: the mapping reads back the value
of the last occurrence of the key, falling back to the initial dict. -/
theorem dictLookup_foldl_attrs (attrs : List StepAttribute)
    (d : List (String × JValue)) (k : String) :
    dictLookup (attrs.foldl (fun d a => dictInsert d a.key (attrValueToJ a.value)) d) k =
      match attrs.reverse.find? (fun a => a.key == k) with
      | some a => some (attrValueToJ a.value)
      | none => dictLookup d k := by
  induction attrs generalizing d with
  | nil => simp
  | cons a as ih =>
    simp only [List.foldl_cons, List.reverse_cons, List.find?_append]
    rw [ih]
    cases hfind : as.reverse.find? (fun a => a.key == k) with
    | some x => simp
    | none =>
      simp only [Option.or_none]
      by_cases hk : a.key = k
      · simp [List.find?, hk, dictLookup_dictInsert]
      · have hk' : (a.key == k) = false := by simpa using hk
        simp [List.find?, hk', dictLookup_dictInsert, hk]

/-- IR attribute lookup is last-occurrence lookup on the AST list. -/
theorem dictLookup_stepAttrsIR (attrs : List StepAttribute) (k : String) :
    dictLookup (stepAttrsIR attrs) k =
      (attrs.reverse.find? (fun a => a.key == k)).map (fun a => attrValueToJ a.value) := by
  rw [stepAttrsIR, dictLookup_foldl_attrs]
  cases attrs.reverse.find? (fun a => a.key == k) <;> simp [dictLookup, List.find?]

/-- Processing a `content` child never changes the title. -/
theorem applyContentChild_title (w : Workflow) (c : Node) (w' : Workflow)
    (h : applyContentChild w c = .ok w') : w'.title = w.title := by
  unfold applyContentChild at h
  split at h
  · cases hab : transform_agent_block _ with
    | error e => rw [hab] at h; simp [Except.map] at h
    | ok a => rw [hab] at h; simp [Except.map] at h; subst h; rfl
  · injection h with h; subst h; rfl
  · injection h with h; subst h; rfl
  · injection h with h; subst h; rfl

/-- Folding content children never changes the title. -/
theorem foldlM_content_title (ccs : List Node) (w r : Workflow)
    (h : ccs.foldlM applyContentChild w = .ok r) : r.title = w.title := by
  induction ccs generalizing w with
  | nil => simp only [List.foldlM_nil] at h; injection h with h; subst h; rfl
  | cons c cs ih =>
    rw [List.foldlM_cons] at h
    cases hc : applyContentChild w c with
    | error e => rw [hc] at h; exact Except.noConfusion h
    | ok w₁ =>
      rw [hc] at h
      exact (ih w₁ h).trans (applyContentChild_title w c w₁ hc)

/-- A heading child sets the title to its extracted heading text. -/
theorem applyChild_title_heading (w : Workflow) (hcs : List Node) (w' : Workflow)
    (h : applyChild w (.tree "heading" hcs) = .ok w') :
    w'.title = extract_heading hcs := by
  simp only [applyChild] at h
  injection h with h; subst h; rfl

/-- Processing a non-heading child never changes the title. -/
theorem applyChild_title_other (w : Workflow) (c : Node) (w' : Workflow)
    (hc : isHeadingTree c = false) (h : applyChild w c = .ok w') :
    w'.title = w.title := by
  unfold applyChild at h
  split at h
  · simp [isHeadingTree] at hc
  · exact foldlM_content_title _ _ _ h
  · injection h with h; subst h; rfl

/-- The title after folding workflow children: the last `heading` child
wins; with no heading the initial title survives. -/
theorem foldlM_applyChild_title (cs : List Node) (w r : Workflow)
    (h : cs.foldlM applyChild w = .ok r) :
    r.title =
      match cs.reverse.find? isHeadingTree with
      | some (.tree _ hcs) => extract_heading hcs
      | _ => w.title := by
  induction cs generalizing w with
  | nil => simp only [List.foldlM_nil] at h; injection h with h; subst h; rfl
  | cons c cs ih =>
    rw [List.foldlM_cons] at h
    cases hc : applyChild w c with
    | error e => rw [hc] at h; exact Except.noConfusion h
    | ok w₁ =>
      rw [hc] at h
      have hr := ih w₁ h
      simp only [List.reverse_cons, List.find?_append]
      cases hfind : cs.reverse.find? isHeadingTree with
      | some x =>
        have px := List.find?_some hfind
        cases x with
        | tok ty v => simp [isHeadingTree] at px
        | tree d xcs =>
          rw [hfind] at hr
          simpa using hr
      | none =>
        rw [hfind] at hr
        simp only [Option.none_or]
        cases hhead : isHeadingTree c with
        | true =>
          cases c with
          | tok ty v => simp [isHeadingTree] at hhead
          | tree d ccs =>
            have hd : d = "heading" := by simpa [isHeadingTree] using hhead
            subst hd
            simp only [List.find?, hhead]
            simp only [hr]
            exact applyChild_title_heading w ccs w₁ hc
        | false =>
          simp only [List.find?, hhead]
          simp only [hr]
          exact applyChild_title_other w c w₁ hhead hc

/-- Accumulating path components onto a nonempty accumulator appends the
tail renderings. -/
theorem foldl_renderAcc (ps : List PathPart) (acc : List String) (h : acc ≠ []) :
    ps.foldl renderAcc acc = acc ++ ps.map renderPathTail := by
  induction ps generalizing acc with
  | nil => simp
  | cons p ps ih =>
    have hstep : renderAcc acc p = acc ++ [renderPathTail p] := by
      cases p with
      | prop s => simp [renderAcc, renderPathTail, List.isEmpty_iff, h]
      | idx n => simp [renderAcc, renderPathTail]
    rw [List.foldl_cons, hstep, ih _ (by simp)]
    simp

/-- A string embedded between two others is an infix of the result. -/
theorem data_infix_middle (a b c : String) :
    b.data <:+: ((a ++ b) ++ c).data :=
  ⟨a.data, c.data, by simp⟩

/-- A singleton token list feeds the token's value to the attribute rule. -/
theorem transform_step_attribute_singleton (ty s : String) :
    transform_step_attribute [Node.tok ty s] = attrOfLine s := by
  simp only [transform_step_attribute, List.findSome?_cons]
  cases attrOfLine s <;> simp [List.findSome?]

/-- A `parse_string` failure carries no position information. -/
theorem parse_string_pos_none (content source : String) (pe : ParseError)
    (h : parse_string content source = .error pe) :
    pe.line = none ∧ pe.column = none := by
  unfold parse_string at h
  cases hp : parseSF content with
  | error e =>
    simp only [hp] at h
    injection h with h
    subst h
    exact ⟨rfl, rfl⟩
  | ok t =>
    simp only [hp] at h
    cases ht : transform t with
    | ok w => simp only [ht] at h; exact Except.noConfusion h
    | error e =>
      simp only [ht] at h
      injection h with h
      subst h
      exact ⟨rfl, rfl⟩

/-- A `parse_file` failure carries no position information. -/
theorem parse_file_pos_none (rr : Except String String) (path : String)
    (pe : ParseError) (h : parse_file rr path = .error pe) :
    pe.line = none ∧ pe.column = none := by
  unfold parse_file at h
  cases rr with
  | error e =>
    injection h with h
    subst h
    exact ⟨rfl, rfl⟩
  | ok content =>
    cases hps : parse_string content path with
    | ok w => simp only [hps] at h; exact Except.noConfusion h
    | error pe' =>
      simp only [hps] at h
      injection h with h
      subst h
      exact ⟨rfl, rfl⟩

/-- The human path the code computes equals the spec rendering. -/
theorem human_path_eq (ap : List PathPart) :
    (if (ap.foldl renderAcc []).isEmpty then "root"
     else strConcat (ap.foldl renderAcc [])) = renderPathSpec ap := by
  cases ap with
  | nil => simp [renderPathSpec]
  | cons p ps =>
    have hhead : renderAcc [] p = [renderPathHead p] := by
      cases p <;> simp [renderAcc, renderPathHead]
    rw [List.foldl_cons, hhead, foldl_renderAcc ps [renderPathHead p] (by simp)]
    simp [renderPathSpec, strConcat]

/-- The wrapped error's path field is the spec rendering of the
violation's absolute path. -/
theorem from_jsonschema_error_path (e : JsonschemaError) :
    (ValidationError.from_jsonschema_error e).path = renderPathSpec e.absolute_path := by
  obtain ⟨v, m, ap, st, se, i⟩ := e
  simp only [ValidationError.from_jsonschema_error]
  exact human_path_eq ap

/-- The wrapped error's message follows the claimed special-casing. -/
theorem from_jsonschema_error_message (e : JsonschemaError) :
    (ValidationError.from_jsonschema_error e).message = messageSpec e := by
  obtain ⟨v, m, ap, st, se, i⟩ := e
  simp only [ValidationError.from_jsonschema_error, messageSpec, human_path_eq,
    beq_iff_eq]

/-- A bad `ir_version` (anything but the string `"0.2"`) fails
validation with the wrapped enum error. -/
theorem validate_ir_bad_version (v : JValue) (hv : v ≠ JValue.str "0.2") :
    validate_ir (irWithVersion v) =
      .error (ValidationError.from_jsonschema_error (enumErr v)) := by
  cases v with
  | str s =>
    have hs : (s == "0.2") = false :=
      beq_eq_false_iff_ne.mpr (fun h => hv (by rw [h]))
    simp only [validate_ir, validateIR, irWithVersion, dictLookup, List.find?,
      show (("ir_version" : String) == "ir_version") = true from rfl,
      show (("ir_version" : String) == "workflow") = false from rfl,
      show (("workflow" : String) == "workflow") = true from rfl,
      Option.map, hs, Bool.false_eq_true, if_false]
    rfl
  | int n => rfl
  | arr xs => rfl
  | obj fs => rfl

/-! ## Claims -/

/-- C1: compiling the demo source
`# Demo / ## Agent: Bot / - Step: Greet / artifact: out.txt / retry: 2`
with `compile_string` returns (without raising) the IR whose
`workflow.title` is `"Demo"`, with one agent `"Bot"` holding one step
`"Greet"` whose attributes mapping is
`{"artifact": "out.txt", "retry": 2}` (the integer 2), whose
`escape_blocks` and `secrets` are empty, and this IR passes schema
validation. -/
theorem c1_e2e_demo :
    compile_string demoSrc "<string>" = .ok demoIR ∧
    validateIR demoIR = .ok () :=
  ⟨rfl, rfl⟩

/-- C2: an attribute line is matched as `key: value` (whitespace around
the colon tolerated, key lowercased, value trimmed); for keys `retry`
and `timeout` an attribute is produced iff the trimmed raw value is all
decimal digits, in which case it is the parsed integer; non-digit values
produce no attribute and no error, while `retry: 3` and `timeout: 45`
yield the integers 3 and 45. -/
theorem c2_numeric_gating (ty s : String) (k v : List Char)
    (hm : matchKV (pyStrip s).data = some (k, v))
    (hk : pyLower ⟨k⟩ = "retry" ∨ pyLower ⟨k⟩ = "timeout") :
    ( transform_step_attribute [Node.tok ty s] =
      if pyIsDigit (pyStrip ⟨v⟩) then
        some ⟨pyLower ⟨k⟩, AttrValue.int (pyInt (pyStrip ⟨v⟩))⟩
      else none) ∧
    transform_step_attribute [Node.tok "ATTR" "retry: abc"] = none ∧
    transform_step_attribute [Node.tok "ATTR" "timeout: 12.5"] = none ∧
    transform_step_attribute [Node.tok "ATTR" "retry: 3"] =
      some ⟨"retry", AttrValue.int 3⟩ ∧
    transform_step_attribute [Node.tok "ATTR" "timeout: 45"] =
      some ⟨"timeout", AttrValue.int 45⟩ := by
  refine ⟨?_, rfl, rfl, rfl, rfl⟩
  rw [transform_step_attribute_singleton]
  simp only [attrOfLine, hm]
  cases hk with
  | inl h => rw [h]; simp
  | inr h => rw [h]; simp

/-- C2 witness: the line `retry: 7` matches with key `retry` and all-digit
value `7`, and the attribute produced is the integer 7. -/
theorem c2_numeric_gating_witness :
    matchKV (pyStrip "retry: 7").data = some ("retry".data, "7".data) ∧
    (pyLower ⟨"retry".data⟩ = "retry" ∨ pyLower ⟨"retry".data⟩ = "timeout") ∧
    transform_step_attribute [Node.tok "ATTR" "retry: 7"] =
      (if pyIsDigit (pyStrip ⟨"7".data⟩) then
        some ⟨pyLower ⟨"retry".data⟩, AttrValue.int (pyInt (pyStrip ⟨"7".data⟩))⟩
      else none) :=
  ⟨rfl, Or.inl rfl,
    (c2_numeric_gating "ATTR" "retry: 7" "retry".data "7".data rfl (Or.inl rfl)).1⟩

/-- C9: compilation is deterministic — equal source texts parse and
compile to equal results (the pipeline is a pure function of its
input). -/
theorem c9_deterministic (c₁ c₂ source : String) (h : c₁ = c₂) :
    parse_string c₁ source = parse_string c₂ source ∧
    compile_string c₁ source = compile_string c₂ source := by
  subst h
  exact ⟨rfl, rfl⟩

/-- C9 witness: two compiles of the demo source agree. -/
theorem c9_deterministic_witness :
    parse_string demoSrc "<string>" = parse_string demoSrc "<string>" ∧
    compile_string demoSrc "<string>" = compile_string demoSrc "<string>" :=
  c9_deterministic demoSrc demoSrc "<string>" rfl

/-- C10: whenever `parse_string` or `parse_file` fails, the raised
`ParseError` has `line = None` and `column = None`: the facade never
populates the position fields. -/
theorem c10_no_position (content source path : String) (rr : Except String String)
    (pe₁ pe₂ : ParseError)
    (h₁ : parse_string content source = .error pe₁)
    (h₂ : parse_file rr path = .error pe₂) :
    pe₁.line = none ∧ pe₁.column = none ∧ pe₂.line = none ∧ pe₂.column = none := by
  obtain ⟨l₁, c₁⟩ := parse_string_pos_none content source pe₁ h₁
  obtain ⟨l₂, c₂⟩ := parse_file_pos_none rr path pe₂ h₂
  exact ⟨l₁, c₁, l₂, c₂⟩

/-- Lowering a value to IR is injective on attribute values. -/
theorem attrValueToJ_eq_iff (x y : AttrValue) :
    attrValueToJ x = attrValueToJ y ↔ x = y := by
  cases x <;> cases y <;> simp [attrValueToJ]

/-- A step with attributes `retry: 1, retry: 2, retry: 1`. -/
def dupStep : Step := ⟨"S", [⟨"retry", .int 1⟩, ⟨"retry", .int 2⟩, ⟨"retry", .int 1⟩]⟩

/-- C3 counterexample: in `dupStep` duplicate occurrences of `retry`
carry different values (1 and 2), yet `get_attribute` and the IR mapping
agree (both give 1, the first and last occurrence), so the claim that the
two lookups disagree exactly when duplicate occurrences of a key carry
different values is false. -/
theorem c3_counterexample :
    dupStep.get_attribute "retry" = some ⟨"retry", .int 1⟩ ∧
    dictLookup (stepAttrsIR dupStep.attributes) "retry" = some (.int 1) ∧
    ¬((dictLookup (stepAttrsIR dupStep.attributes) "retry" ≠
        (dupStep.get_attribute "retry").map (fun a => attrValueToJ a.value)) ↔
      ∃ a₁ ∈ dupStep.attributes, ∃ a₂ ∈ dupStep.attributes,
        a₁.key = "retry" ∧ a₂.key = "retry" ∧ a₁.value ≠ a₂.value) := by
  refine ⟨rfl, rfl, fun hiff => ?_⟩
  have hdup : ∃ a₁ ∈ dupStep.attributes, ∃ a₂ ∈ dupStep.attributes,
      a₁.key = "retry" ∧ a₂.key = "retry" ∧ a₁.value ≠ a₂.value := by
    refine ⟨⟨"retry", .int 1⟩, by decide, ⟨"retry", .int 2⟩, by decide, rfl, rfl, by decide⟩
  exact hiff.mpr hdup rfl

/-- C3 (amended): `get_attribute` returns the first attribute with the
key, the IR `attributes` mapping holds the value of the last occurrence,
and the two lookups disagree exactly when the first and the last
occurrence of the key carry different values. -/
theorem c3_dup_keys (nm k : String) (attrs : List StepAttribute)
    (af al : StepAttribute)
    (hf : attrs.find? (fun a => a.key == k) = some af)
    (hl : attrs.reverse.find? (fun a => a.key == k) = some al) :
    (Step.mk nm attrs).get_attribute k = some af ∧
    dictLookup (stepAttrsIR attrs) k =
      (attrs.reverse.find? (fun a => a.key == k)).map (fun a => attrValueToJ a.value) ∧
    (dictLookup (stepAttrsIR attrs) k ≠ some (attrValueToJ af.value) ↔
      al.value ≠ af.value) := by
  refine ⟨hf, dictLookup_stepAttrsIR attrs k, ?_⟩
  rw [dictLookup_stepAttrsIR attrs k, hl]
  simp [attrValueToJ_eq_iff]

/-- C3 witness: for `retry: 1, retry: 2`, `get_attribute` yields the
first occurrence while the IR mapping holds the last, and the lookups
disagree since the values differ. -/
theorem c3_dup_keys_witness :
    (Step.mk "S" [⟨"retry", .int 1⟩, ⟨"retry", .int 2⟩]).get_attribute "retry" =
      some ⟨"retry", .int 1⟩ ∧
    dictLookup (stepAttrsIR [⟨"retry", .int 1⟩, ⟨"retry", .int 2⟩]) "retry" =
      ([StepAttribute.mk "retry" (.int 1), ⟨"retry", .int 2⟩].reverse.find?
        (fun a => a.key == "retry")).map (fun a => attrValueToJ a.value) ∧
    (dictLookup (stepAttrsIR [⟨"retry", .int 1⟩, ⟨"retry", .int 2⟩]) "retry" ≠
        some (attrValueToJ (AttrValue.int 1)) ↔
      AttrValue.int 2 ≠ AttrValue.int 1) :=
  c3_dup_keys "S" "retry" [⟨"retry", .int 1⟩, ⟨"retry", .int 2⟩]
    ⟨"retry", .int 1⟩ ⟨"retry", .int 2⟩ rfl rfl

/-- C4 counterexample: a well-formed `Workflow` whose step attribute key
is outside the recognized set makes `workflow_to_ir` raise (the claim
that it succeeds for every well-formed workflow is false, because
`workflow_to_ir` ends by validating the IR it builds). -/
theorem c4_counterexample : isOkE (workflow_to_ir bogusWorkflow) = false := rfl

/-- C4 (amended): the lowering construction itself performs no
validation — it always produces an IR with `ir_version = "0.2"` — and
`workflow_to_ir` returns that IR without raising whenever it passes
schema validation, which holds in particular for a workflow with no
agents; a workflow whose lowered IR fails the schema makes
`workflow_to_ir` raise the validation failure. -/
theorem c4_lowering (w : Workflow) :
    irVersionOf (lower w) = some (JValue.str "0.2") ∧
    (validateIR (lower w) = .ok () → workflow_to_ir w = .ok (lower w)) := by
  refine ⟨rfl, fun h => ?_⟩
  simp only [workflow_to_ir, validate_ir, h]

/-- C4 witness: the empty workflow (no agents) lowers to a validating IR
that `workflow_to_ir` returns unchanged, with `ir_version = "0.2"`. -/
theorem c4_lowering_witness :
    irVersionOf (lower ⟨"", [], [], []⟩) = some (JValue.str "0.2") ∧
    workflow_to_ir ⟨"", [], [], []⟩ = .ok (lower ⟨"", [], [], []⟩) :=
  ⟨(c4_lowering ⟨"", [], [], []⟩).1, (c4_lowering ⟨"", [], [], []⟩).2 rfl⟩

/-- C5: when lowering's validation fails, the `ValidationError` built
from the schema-level error propagates unmodified — `compile_string` is
exactly `workflow_to_ir` behind the parse, tagging validation failures
with a kind distinct from `ParseError` — and whenever compilation
returns an IR, that IR passes schema validation. -/
theorem c5_validation_boundary (content source : String) (w wBad : Workflow)
    (e : JsonschemaError) (ir : JValue)
    (hp : parse_string content source = .ok w)
    (hv : validateIR (lower wBad) = .error e)
    (hok : compile_string content source = .ok ir) :
    compile_string content source =
      Except.mapError CompileFailure.validation (workflow_to_ir w) ∧
    workflow_to_ir wBad = .error (ValidationError.from_jsonschema_error e) ∧
    validateIR ir = .ok () := by
  refine ⟨?_, ?_, ?_⟩
  · unfold compile_string
    simp only [hp]
    cases workflow_to_ir w <;> simp [Except.mapError]
  · simp only [workflow_to_ir, validate_ir, hv]
  · unfold compile_string at hok
    cases hps : parse_string content source with
    | error pe => simp only [hps] at hok; exact Except.noConfusion hok
    | ok w' =>
      simp only [hps] at hok
      cases hw : workflow_to_ir w' with
      | error ve => simp only [hw] at hok; exact Except.noConfusion hok
      | ok ir' =>
        simp only [hw] at hok
        injection hok with hok
        subst hok
        unfold workflow_to_ir validate_ir at hw
        cases hvv : validateIR (lower w') with
        | ok u =>
          cases u
          simp only [hvv] at hw
          injection hw with hw
          subst hw
          exact hvv
        | error ee => simp only [hvv] at hw; exact Except.noConfusion hw

/-- C5 witness: the demo source parses to `demoWorkflow` and compiles to
`demoIR`, which validates; `bogusWorkflow` fails validation and
`workflow_to_ir` raises exactly the wrapped schema error. -/
theorem c5_validation_boundary_witness :
    compile_string demoSrc "<string>" =
      Except.mapError CompileFailure.validation (workflow_to_ir demoWorkflow) ∧
    workflow_to_ir bogusWorkflow =
      .error (ValidationError.from_jsonschema_error bogusSchemaErr) ∧
    validateIR demoIR = .ok () :=
  c5_validation_boundary demoSrc "<string>" demoWorkflow bogusWorkflow
    bogusSchemaErr demoIR rfl rfl rfl

/-- C7: a grammar failure in `parse_string` is wrapped into a
`ParseError` whose message carries the source label; `parse_file` turns
an unreadable file into a `ParseError`, and a parse failure inside
`parse_file` is also re-raised as a `ParseError` (with the
`Failed to read file` wrapper the code's catch-all applies) — never the
raw underlying exception. -/
theorem c7_parse_error_wrapping (content source path rmsg e : String)
    (hpe : parseSF content = .error e) :
    parse_string content source =
      .error ⟨"Parse error in " ++ source ++ ": " ++ e, none, none⟩ ∧
    source.data <:+: ("Parse error in " ++ source ++ ": " ++ e).data ∧
    parse_file (.error rmsg) path =
      .error ⟨"Failed to read file " ++ path ++ ": " ++ rmsg, none, none⟩ ∧
    parse_file (.ok content) path =
      .error ⟨"Failed to read file " ++ path ++ ": " ++
        ("Parse error in " ++ path ++ ": " ++ e), none, none⟩ := by
  have h1 : ∀ src, parse_string content src =
      .error ⟨"Parse error in " ++ src ++ ": " ++ e, none, none⟩ := by
    intro src
    unfold parse_string
    simp only [hpe]
  refine ⟨h1 source, ?_, rfl, ?_⟩
  · refine ⟨"Parse error in ".data, ": ".data ++ e.data, ?_⟩
    simp
  · unfold parse_file
    simp only [h1 path]

/-- C7 witness: a concrete syntactically invalid input and a concrete
read failure produce the wrapped `ParseError`s. -/
theorem c7_parse_error_wrapping_witness :
    parse_string "Invalid syntax ###" "<string>" =
      .error ⟨"Parse error in " ++ "<string>" ++ ": " ++
        "Unexpected input: Invalid syntax ###", none, none⟩ ∧
    ("<string>" : String).data <:+: ("Parse error in " ++ "<string>" ++ ": " ++
      "Unexpected input: Invalid syntax ###").data ∧
    parse_file (.error "boom") "p" =
      .error ⟨"Failed to read file " ++ "p" ++ ": " ++ "boom", none, none⟩ ∧
    parse_file (.ok "Invalid syntax ###") "p" =
      .error ⟨"Failed to read file " ++ "p" ++ ": " ++
        ("Parse error in " ++ "p" ++ ": " ++
          "Unexpected input: Invalid syntax ###"), none, none⟩ :=
  c7_parse_error_wrapping "Invalid syntax ###" "<string>" "p" "boom"
    "Unexpected input: Invalid syntax ###" rfl

/-- C6: every wrapped validation error carries the human-readable path
(property names joined by `" → "`, indices as `[i]`, `"root"` when the
path is empty) and the offending value, with the message special-cased
for missing-required-property, wrong-type and enum violations and a
generic template otherwise; concretely, an IR lacking `ir_version`
fails with `Missing required property 'ir_version' at root`, and any
`ir_version` other than `"0.2"` fails with a message referencing
`"0.2"` and carrying the offending value. -/
theorem c6_error_reporting (e : JsonschemaError) (v : JValue)
    (hv : v ≠ JValue.str "0.2") :
    (ValidationError.from_jsonschema_error e).path = renderPathSpec e.absolute_path ∧
    (ValidationError.from_jsonschema_error e).value = some e.inst ∧
    (ValidationError.from_jsonschema_error e).message = messageSpec e ∧
    vErrMessage (validate_ir irMissingVersion) =
      some "Missing required property 'ir_version' at root" ∧
    vErrPath (validate_ir irMissingVersion) = some "root" ∧
    vErrMessage (validate_ir (irWithVersion v)) =
      some "Invalid value at ir_version. Allowed values: 0.2" ∧
    vErrValue (validate_ir (irWithVersion v)) = some (some v) := by
  refine ⟨from_jsonschema_error_path e, rfl, from_jsonschema_error_message e,
    rfl, rfl, ?_, ?_⟩
  · rw [validate_ir_bad_version v hv]; rfl
  · rw [validate_ir_bad_version v hv]; rfl

/-- C6 witness: concrete error and concrete bad version `"0.1"`. -/
theorem c6_error_reporting_witness :
    (ValidationError.from_jsonschema_error bogusSchemaErr).path =
      renderPathSpec bogusSchemaErr.absolute_path ∧
    (ValidationError.from_jsonschema_error bogusSchemaErr).value =
      some bogusSchemaErr.inst ∧
    (ValidationError.from_jsonschema_error bogusSchemaErr).message =
      messageSpec bogusSchemaErr ∧
    vErrMessage (validate_ir irMissingVersion) =
      some "Missing required property 'ir_version' at root" ∧
    vErrPath (validate_ir irMissingVersion) = some "root" ∧
    vErrMessage (validate_ir (irWithVersion (JValue.str "0.1"))) =
      some "Invalid value at ir_version. Allowed values: 0.2" ∧
    vErrValue (validate_ir (irWithVersion (JValue.str "0.1"))) =
      some (some (JValue.str "0.1")) :=
  c6_error_reporting bogusSchemaErr (JValue.str "0.1")
    (by intro h; injection h with h; exact absurd h (by decide))

/-- C8 counterexample: for the heading token `# #Hashtag` the code's
`lstrip("# ")` also removes the `#` that belongs to the title, giving
`"Hashtag"` where the claim (leading markup only removed, title's own
`#` preserved) requires `"#Hashtag"`; and with two headings the last
one wins, not the first. -/
theorem c8_counterexample :
    transform (Node.tree "workflow" [
      Node.tree "heading" [Node.tok "HEADING" "# #Hashtag"]]) =
      .ok ⟨"Hashtag", [], [], []⟩ ∧
    specClaimStrip "# #Hashtag" = "#Hashtag" ∧
    ("Hashtag" : String) ≠ "#Hashtag" ∧
    transform (Node.tree "workflow" [
      Node.tree "heading" [Node.tok "HEADING" "# First"],
      Node.tree "heading" [Node.tok "HEADING" "# Second"]]) =
      .ok ⟨"Second", [], [], []⟩ ∧
    ("Second" : String) ≠ "First" :=
  ⟨rfl, rfl, by decide, rfl, by decide⟩

/-- C8 (amended): whenever the transformer succeeds on a workflow tree,
the title is the first `HEADING` token of the last `heading` child with
every leading `#` and space stripped (so a `#` that starts the title
text is removed too), and a tree without a heading yields the empty
title rather than an error; a `start` wrapper delegates to the same
computation. -/
theorem c8_title_extraction (cs : List Node) (w : Workflow)
    (h : transform (Node.tree "workflow" cs) = .ok w) :
    w.title = specTitle cs ∧
    transform (Node.tree "start" [Node.tree "workflow" cs]) = .ok w := by
  have hfold : cs.foldlM applyChild ⟨"", [], [], []⟩ = .ok w := h
  refine ⟨?_, h⟩
  rw [foldlM_applyChild_title cs ⟨"", [], [], []⟩ w hfold]
  unfold specTitle
  cases hfind : cs.reverse.find? isHeadingTree with
  | none => rfl
  | some x =>
    cases x with
    | tok ty v => rfl
    | tree d hcs => rfl

/-- C8 witness: a single `# Demo` heading yields the title `Demo`, also
under the `start` wrapper. -/
theorem c8_title_extraction_witness :
    (⟨"Demo", [], [], []⟩ : Workflow).title =
      specTitle [Node.tree "heading" [Node.tok "HEADING" "# Demo"]] ∧
    transform (Node.tree "start" [Node.tree "workflow" [
      Node.tree "heading" [Node.tok "HEADING" "# Demo"]]]) =
      .ok ⟨"Demo", [], [], []⟩ :=
  c8_title_extraction [Node.tree "heading" [Node.tok "HEADING" "# Demo"]]
    ⟨"Demo", [], [], []⟩ rfl

/-- C10 witness: a failing parse and a failing file read both produce
position-free errors. -/
theorem c10_no_position_witness :
    (⟨"Parse error in <string>: Unexpected input: Invalid syntax ###",
      none, none⟩ : ParseError).line = none ∧
    (⟨"Parse error in <string>: Unexpected input: Invalid syntax ###",
      none, none⟩ : ParseError).column = none ∧
    (⟨"Failed to read file p: boom", none, none⟩ : ParseError).line = none ∧
    (⟨"Failed to read file p: boom", none, none⟩ : ParseError).column = none :=
  c10_no_position "Invalid syntax ###" "<string>" "p" (.error "boom") _ _ rfl rfl

end StanzaFlow
